import Mathlib

/-!
Verification of the schedule-driven alarm engine of the school-alert app
(src/App.tsx and src/types.ts).

The engine state and its operations are shallowly embedded: React state and
refs become fields of a record, the functions checkAlarms, triggerAlarm,
stopAlarm, toggleTestSound and the memo currentOngoingClass become pure
state-passing functions, and the pending setTimeout auto-stop callbacks
become an explicit list of (timer id, deadline) pairs that fire when the
wall clock reaches their deadline. Wall-clock instants are milliseconds
since local midnight of the current day; the weekday string of the instant
is passed as a parameter (it is constant within a day).
-/

namespace SchoolAlert

/-- SchoolClass record from src/types.ts. -/
structure SchoolClass where
  id : String
  name : String
  startTime : String
  endTime : String
  days : List String
  active : Bool
deriving DecidableEq

/-- The kind tag of an alarm activation, the literal type of the second
argument of triggerAlarm in src/App.tsx. -/
inductive AlarmHitType where
  | startHit
  | endHit
deriving DecidableEq

/-- AlarmState record from src/types.ts (the value held in activeAlarm). -/
structure AlarmState where
  isActive : Bool
  className : String
  type : AlarmHitType
deriving DecidableEq

/-- JavaScript lexicographic comparison of strings by code units (the
semantics of the builtin < operator on strings), on the character lists. -/
def ltCharList : List Char → List Char → Bool
  | [], [] => false
  | [], _ :: _ => true
  | _ :: _, [] => false
  | a :: as, b :: bs =>
    if a < b then true
    else if b < a then false
    else ltCharList as bs

/-- JavaScript string less-than. -/
def jsLt (s₁ s₂ : String) : Bool := ltCharList s₁.data s₂.data

/-- JavaScript string greater-or-equal, as used by nowStr >= c.startTime. -/
def jsLe (s₁ s₂ : String) : Bool := ! jsLt s₂ s₁

/-- Decimal digit character. -/
def digitChar (n : Nat) : Char := Char.ofNat (48 + n)

/-- Character list of n.toString().padStart(2, '0') for n below 100
(hours and minutes of a Date are always below 100). -/
def pad2 (n : Nat) : List Char := [digitChar (n / 10), digitChar (n % 10)]

/-- Date.prototype.getHours for an instant in milliseconds. -/
def getHours (t : Nat) : Nat := t / 3600000 % 24

/-- Date.prototype.getMinutes for an instant in milliseconds. -/
def getMinutes (t : Nat) : Nat := t / 60000 % 60

/-- The zero-padded HH:mm string built in checkAlarms and
currentOngoingClass from the current instant. -/
def hhmm (t : Nat) : String := ⟨pad2 (getHours t) ++ ':' :: pad2 (getMinutes t)⟩

/-- The engine's mutable state: React state and refs of the App component
that the alarm engine reads or writes. timers is the multiset of pending
setTimeout callbacks (id, deadline in ms); timerRef is autoStopTimerRef. -/
structure EngineState where
  currentUser : Option String
  classes : List SchoolClass
  activeAlarm : Option AlarmState
  isTestingSound : Bool
  fired : List String
  lastMinute : Int
  timers : List (Nat × Nat)
  timerRef : Option Nat
  nextTimerId : Nat
  notifGranted : Bool
deriving DecidableEq

/-- Observable side effects emitted while processing a tick. -/
inductive Emitted where
  | triggered (classId className : String) (ty : AlarmHitType)
  | notified (className : String)
deriving DecidableEq

/-- The timers still pending after clearTimeout(autoStopTimerRef.current). -/
def removeRefTimer (st : EngineState) : List (Nat × Nat) :=
  match st.timerRef with
  | some i => st.timers.filter (fun p => p.1 ≠ i)
  | none => st.timers

/-- triggerAlarm (src/App.tsx lines 286-305): activate the alarm with the
given name and kind, clear any previously armed auto-stop timer, and arm a
fresh auto-stop timer 20000 ms from now. -/
def triggerAlarm (className : String) (ty : AlarmHitType) (now : Nat)
    (st : EngineState) : EngineState :=
  { st with
    activeAlarm := some { isActive := true, className := className, type := ty },
    timers := removeRefTimer st ++ [(st.nextTimerId, now + 20000)],
    timerRef := some st.nextTimerId,
    nextTimerId := st.nextTimerId + 1 }

/-- stopAlarm (src/App.tsx lines 307-318): deactivate the alarm, reset the
test-sound flag, cancel the pending auto-stop timer. -/
def stopAlarm (st : EngineState) : EngineState :=
  { st with
    activeAlarm := none,
    isTestingSound := false,
    timers := removeRefTimer st,
    timerRef := none }

/-- A setTimeout callback firing: the timer with this id is no longer
pending, and its body runs stopAlarm. -/
def fireTimer (i : Nat) (st : EngineState) : EngineState :=
  stopAlarm { st with timers := st.timers.filter (fun p => p.1 ≠ i) }

/-- Fire every pending timer whose deadline has been reached by now. -/
def fireDueTimers (now : Nat) (st : EngineState) : EngineState :=
  (st.timers.filter (fun p => p.2 ≤ now)).foldl (fun s p => fireTimer p.1 s) st

/-- The per-class body of the forEach loop of checkAlarms (src/App.tsx
lines 267-283): skip inactive classes and classes not scheduled today;
when the current HH:mm equals the class end time and the class id has not
fired this minute, record it as fired, trigger the alarm, and show a
notification when permission is granted. -/
def checkClass (dayName : String) (t : Nat)
    (acc : EngineState × List Emitted) (c : SchoolClass) :
    EngineState × List Emitted :=
  let st := acc.1
  if ¬ c.active = true ∨ dayName ∉ c.days then acc
  else if hhmm t = c.endTime ∧ c.id ∉ st.fired then
    let st₁ := { st with fired := c.id :: st.fired }
    let st₂ := triggerAlarm c.name AlarmHitType.endHit t st₁
    (st₂, acc.2 ++ Emitted.triggered c.id c.name AlarmHitType.endHit ::
      (if st.notifGranted then [Emitted.notified c.name] else []))
  else acc

/-- The minute-rollover step at the top of checkAlarms (src/App.tsx lines
262-265): clear the fired set and update lastMinuteRef when the current
minute differs from the last seen one. -/
def rollState (st : EngineState) (t : Nat) : EngineState :=
  if ((getMinutes t : Nat) : Int) ≠ st.lastMinute then
    { st with fired := [], lastMinute := ((getMinutes t : Nat) : Int) }
  else st

/-- checkAlarms (src/App.tsx lines 254-284): do nothing when no user is
logged in or an alarm is already active; otherwise clear the fired set on
a minute rollover, then evaluate every class against the current instant. -/
def checkAlarms (dayName : String) (t : Nat) (st : EngineState) :
    EngineState × List Emitted :=
  if st.currentUser = none ∨ st.activeAlarm ≠ none then (st, [])
  else
    (rollState st t).classes.foldl (checkClass dayName t) (rollState st t, [])

/-- toggleTestSound (src/App.tsx lines 361-369): stop the alarm when a
test is in progress, otherwise start a manual test alarm. -/
def toggleTestSound (now : Nat) (st : EngineState) : EngineState :=
  if st.isTestingSound then stopAlarm st
  else triggerAlarm "تجربة الجرس" AlarmHitType.startHit now
    { st with isTestingSound := true }

/-- One delivery of the worker tick (src/App.tsx lines 81-85) together
with the real-time firing of any auto-stop deadline that elapsed before
this tick: due timers fire first, then checkAlarms runs on the tick. -/
def systemTick (dayName : String) (acc : EngineState × List Emitted)
    (t : Nat) : EngineState × List Emitted :=
  let st := fireDueTimers t acc.1
  let r := checkAlarms dayName t st
  (r.1, acc.2 ++ r.2)

/-- Process a chronological sequence of ticks, accumulating emitted
events. -/
def systemRun (dayName : String) (st : EngineState) (ticks : List Nat) :
    EngineState × List Emitted :=
  ticks.foldl (systemTick dayName) (st, [])

/-- Whether an emitted event is a schedule trigger for the given class id. -/
def isTriggerOf (cid : String) : Emitted → Bool
  | Emitted.triggered i _ _ => i = cid
  | Emitted.notified _ => false

/-- Number of schedule triggers for a class id in an event log. -/
def countTriggers (cid : String) (log : List Emitted) : Nat :=
  (log.filter (isTriggerOf cid)).length

/-- The engine state at component start: no alarm, empty fired set,
lastMinuteRef initialized to -1, no pending timer. -/
def initState (user : Option String) (classes : List SchoolClass)
    (notifGranted : Bool) : EngineState :=
  { currentUser := user
    classes := classes
    activeAlarm := none
    isTestingSound := false
    fired := []
    lastMinute := -1
    timers := []
    timerRef := none
    nextTimerId := 0
    notifGranted := notifGranted }

/-- The predicate of the find in currentOngoingClass (src/App.tsx lines
198-201): the class is active, scheduled today, and the current HH:mm
string lies in the half-open string interval of the class. -/
def ongoingPred (dayName nowStr : String) (c : SchoolClass) : Bool :=
  if ¬ c.active = true ∨ dayName ∉ c.days then false
  else jsLe c.startTime nowStr && jsLt nowStr c.endTime

/-- currentOngoingClass (src/App.tsx lines 194-202): the first class of
the list, in order, that is ongoing at the given instant. -/
def currentOngoingClass (classes : List SchoolClass) (dayName nowStr : String) :
    Option SchoolClass :=
  classes.find? (ongoingPred dayName nowStr)

/-- currentOngoingClass evaluated at an instant of the day, with nowStr
built exactly as in the source (zero-padded HH:mm of the current time). -/
def currentOngoingClassAt (classes : List SchoolClass) (dayName : String)
    (t : Nat) : Option SchoolClass :=
  currentOngoingClass classes dayName (hhmm t)

/-- Load step for the persisted class list (src/App.tsx lines 141-151).
The outer Option models whether localStorage holds a saved string for the
key; the inner Option models the outcome of JSON.parse on it (none when
parsing throws, caught by the try/catch). With no saved string the class
list is reset to []; with an unparseable string the previous list is kept;
with a parsed list every record of it is loaded as-is. -/
def loadSavedClasses : Option (Option (List SchoolClass)) →
    List SchoolClass → List SchoolClass
  | none, _ => []
  | some none, prev => prev
  | some (some l), _ => l

/-- Modelled from the spec: validity of a persisted ScheduledClass record
(section 3 of the spec: non-empty display name, start strictly before end;
the source performs no such per-record validation, so this predicate only
exists to state what a malformed record is). -/
def wellFormedClass (c : SchoolClass) : Bool :=
  c.name ≠ "" && jsLt c.startTime c.endTime

/-- The fired set against which the membership tests of a processed tick
run: the previous set when the minute is unchanged, the empty set after a
minute rollover. -/
def baseFired (st : EngineState) (t : Nat) : List String :=
  if ((getMinutes t : Nat) : Int) = st.lastMinute then st.fired else []

/-- The static per-class trigger condition of a tick, everything of the
checkClass test that does not depend on the fired set. -/
def staticHit (dayName : String) (t : Nat) (c : SchoolClass) : Prop :=
  c.active = true ∧ dayName ∈ c.days ∧ hhmm t = c.endTime

instance (dayName : String) (t : Nat) (c : SchoolClass) :
    Decidable (staticHit dayName t c) := by
  unfold staticHit; infer_instance

section FieldLemmas

@[simp] lemma triggerAlarm_fired (n : String) (ty : AlarmHitType) (now : Nat)
    (st : EngineState) : (triggerAlarm n ty now st).fired = st.fired := rfl

@[simp] lemma triggerAlarm_lastMinute (n : String) (ty : AlarmHitType) (now : Nat)
    (st : EngineState) : (triggerAlarm n ty now st).lastMinute = st.lastMinute := rfl

@[simp] lemma triggerAlarm_classes (n : String) (ty : AlarmHitType) (now : Nat)
    (st : EngineState) : (triggerAlarm n ty now st).classes = st.classes := rfl

@[simp] lemma triggerAlarm_currentUser (n : String) (ty : AlarmHitType) (now : Nat)
    (st : EngineState) : (triggerAlarm n ty now st).currentUser = st.currentUser := rfl

@[simp] lemma triggerAlarm_notifGranted (n : String) (ty : AlarmHitType) (now : Nat)
    (st : EngineState) : (triggerAlarm n ty now st).notifGranted = st.notifGranted := rfl

@[simp] lemma triggerAlarm_activeAlarm (n : String) (ty : AlarmHitType) (now : Nat)
    (st : EngineState) :
    (triggerAlarm n ty now st).activeAlarm =
      some { isActive := true, className := n, type := ty } := rfl

@[simp] lemma stopAlarm_fired (st : EngineState) : (stopAlarm st).fired = st.fired := rfl

@[simp] lemma stopAlarm_lastMinute (st : EngineState) :
    (stopAlarm st).lastMinute = st.lastMinute := rfl

@[simp] lemma stopAlarm_classes (st : EngineState) :
    (stopAlarm st).classes = st.classes := rfl

@[simp] lemma stopAlarm_currentUser (st : EngineState) :
    (stopAlarm st).currentUser = st.currentUser := rfl

@[simp] lemma stopAlarm_notifGranted (st : EngineState) :
    (stopAlarm st).notifGranted = st.notifGranted := rfl

@[simp] lemma stopAlarm_activeAlarm (st : EngineState) :
    (stopAlarm st).activeAlarm = none := rfl

lemma stopAlarm_timers (st : EngineState) :
    (stopAlarm st).timers = removeRefTimer st := rfl

lemma foldl_fireTimer_fields (l : List (Nat × Nat)) :
    ∀ st : EngineState,
      (l.foldl (fun s p => fireTimer p.1 s) st).fired = st.fired ∧
      (l.foldl (fun s p => fireTimer p.1 s) st).lastMinute = st.lastMinute ∧
      (l.foldl (fun s p => fireTimer p.1 s) st).classes = st.classes ∧
      (l.foldl (fun s p => fireTimer p.1 s) st).currentUser = st.currentUser ∧
      (l.foldl (fun s p => fireTimer p.1 s) st).notifGranted = st.notifGranted := by
  induction l with
  | nil => intro st; exact ⟨rfl, rfl, rfl, rfl, rfl⟩
  | cons p l ih =>
    intro st
    simpa using ih (fireTimer p.1 st)

@[simp] lemma fireDueTimers_fired (now : Nat) (st : EngineState) :
    (fireDueTimers now st).fired = st.fired :=
  (foldl_fireTimer_fields _ st).1

@[simp] lemma fireDueTimers_lastMinute (now : Nat) (st : EngineState) :
    (fireDueTimers now st).lastMinute = st.lastMinute :=
  (foldl_fireTimer_fields _ st).2.1

@[simp] lemma fireDueTimers_classes (now : Nat) (st : EngineState) :
    (fireDueTimers now st).classes = st.classes :=
  (foldl_fireTimer_fields _ st).2.2.1

@[simp] lemma fireDueTimers_currentUser (now : Nat) (st : EngineState) :
    (fireDueTimers now st).currentUser = st.currentUser :=
  (foldl_fireTimer_fields _ st).2.2.2.1

@[simp] lemma fireDueTimers_notifGranted (now : Nat) (st : EngineState) :
    (fireDueTimers now st).notifGranted = st.notifGranted :=
  (foldl_fireTimer_fields _ st).2.2.2.2

end FieldLemmas

section TimeLemmas

lemma getHours_lt (t : Nat) : getHours t < 24 := Nat.mod_lt _ (by decide)

lemma getMinutes_lt (t : Nat) : getMinutes t < 60 := Nat.mod_lt _ (by decide)

lemma digitChar_inj : ∀ a, a < 10 → ∀ b, b < 10 → digitChar a = digitChar b → a = b := by
  decide

lemma pad2_inj {a b : Nat} (ha : a < 100) (hb : b < 100) (h : pad2 a = pad2 b) :
    a = b := by
  simp only [pad2, List.cons.injEq, and_true] at h
  have h1 : a / 10 = b / 10 :=
    digitChar_inj _ (Nat.div_lt_of_lt_mul (by omega)) _
      (Nat.div_lt_of_lt_mul (by omega)) h.1
  have h2 : a % 10 = b % 10 :=
    digitChar_inj _ (Nat.mod_lt _ (by decide)) _ (Nat.mod_lt _ (by decide)) h.2
  omega

lemma getHours_of_lt_day {t : Nat} (h : t < 86400000) : getHours t = t / 3600000 := by
  unfold getHours
  exact Nat.mod_eq_of_lt (by omega)

lemma minuteOfDay_decomp (t : Nat) : t / 60000 = 60 * (t / 3600000) + getMinutes t := by
  unfold getMinutes
  have h1 : t / 3600000 = t / 60000 / 60 := by
    rw [Nat.div_div_eq_div_mul]
  have h2 := Nat.div_add_mod (t / 60000) 60
  omega

lemma hhmm_eq_iff {t₁ t₂ : Nat} (h₁ : t₁ < 86400000) (h₂ : t₂ < 86400000) :
    hhmm t₁ = hhmm t₂ ↔ t₁ / 60000 = t₂ / 60000 := by
  constructor
  · intro h
    unfold hhmm at h
    injection h with h
    simp only [pad2, List.cons_append, List.nil_append, List.cons.injEq, and_true] at h
    obtain ⟨e1, e2, _, e3, e4⟩ := h
    have hh : getHours t₁ = getHours t₂ := by
      have d1 : getHours t₁ / 10 = getHours t₂ / 10 :=
        digitChar_inj _ (by have := getHours_lt t₁; omega) _
          (by have := getHours_lt t₂; omega) e1
      have d2 : getHours t₁ % 10 = getHours t₂ % 10 :=
        digitChar_inj _ (Nat.mod_lt _ (by decide)) _ (Nat.mod_lt _ (by decide)) e2
      omega
    have hm : getMinutes t₁ = getMinutes t₂ := by
      have d1 : getMinutes t₁ / 10 = getMinutes t₂ / 10 :=
        digitChar_inj _ (by have := getMinutes_lt t₁; omega) _
          (by have := getMinutes_lt t₂; omega) e3
      have d2 : getMinutes t₁ % 10 = getMinutes t₂ % 10 :=
        digitChar_inj _ (Nat.mod_lt _ (by decide)) _ (Nat.mod_lt _ (by decide)) e4
      omega
    have hd1 := minuteOfDay_decomp t₁
    have hd2 := minuteOfDay_decomp t₂
    rw [getHours_of_lt_day h₁] at hh
    rw [getHours_of_lt_day h₂] at hh
    omega
  · intro h
    have hh : getHours t₁ = getHours t₂ := by
      unfold getHours
      have : t₁ / 3600000 = t₂ / 3600000 := by
        rw [show (3600000 : Nat) = 60000 * 60 by decide]
        rw [← Nat.div_div_eq_div_mul, ← Nat.div_div_eq_div_mul, h]
      rw [this]
    have hm : getMinutes t₁ = getMinutes t₂ := by
      unfold getMinutes
      rw [h]
    unfold hhmm
    rw [hh, hm]

lemma div_sandwich {a b c k : Nat} (hab : a ≤ b) (hbc : b ≤ c) (h : a / k = c / k) :
    b / k = a / k :=
  Nat.le_antisymm (h ▸ Nat.div_le_div_right hbc) (Nat.div_le_div_right hab)

end TimeLemmas

section CountLemmas

@[simp] lemma countTriggers_nil (cid : String) : countTriggers cid [] = 0 := rfl

lemma countTriggers_append (cid : String) (l₁ l₂ : List Emitted) :
    countTriggers cid (l₁ ++ l₂) = countTriggers cid l₁ + countTriggers cid l₂ := by
  unfold countTriggers
  rw [List.filter_append, List.length_append]

lemma countTriggers_entry (cid i n : String) (ty : AlarmHitType) (tl : List Emitted) :
    countTriggers cid (Emitted.triggered i n ty :: tl) =
      (if i = cid then 1 else 0) + countTriggers cid tl := by
  unfold countTriggers isTriggerOf
  by_cases h : i = cid
  · simp [h]
    omega
  · simp [h]

lemma countTriggers_notified (cid n : String) (tl : List Emitted) :
    countTriggers cid (Emitted.notified n :: tl) = countTriggers cid tl := by
  unfold countTriggers isTriggerOf
  simp

end CountLemmas

section FoldLemmas

variable (dayName : String) (t : Nat)

lemma checkClass_of_guard {c : SchoolClass} (acc : EngineState × List Emitted)
    (h : ¬ c.active = true ∨ dayName ∉ c.days) :
    checkClass dayName t acc c = acc := by
  unfold checkClass
  simp only [if_pos h]

lemma checkClass_of_hit {c : SchoolClass} (acc : EngineState × List Emitted)
    (h : ¬ (¬ c.active = true ∨ dayName ∉ c.days))
    (h₂ : hhmm t = c.endTime ∧ c.id ∉ acc.1.fired) :
    checkClass dayName t acc c =
      (triggerAlarm c.name AlarmHitType.endHit t
         { acc.1 with fired := c.id :: acc.1.fired },
       acc.2 ++ Emitted.triggered c.id c.name AlarmHitType.endHit ::
         (if acc.1.notifGranted then [Emitted.notified c.name] else [])) := by
  unfold checkClass
  simp only [if_neg h, if_pos h₂]

lemma checkClass_of_miss {c : SchoolClass} (acc : EngineState × List Emitted)
    (h : ¬ (¬ c.active = true ∨ dayName ∉ c.days))
    (h₂ : ¬ (hhmm t = c.endTime ∧ c.id ∉ acc.1.fired)) :
    checkClass dayName t acc c = acc := by
  unfold checkClass
  simp only [if_neg h, if_neg h₂]

lemma checkFold_preserves (cs : List SchoolClass) :
    ∀ acc : EngineState × List Emitted,
      (cs.foldl (checkClass dayName t) acc).1.classes = acc.1.classes ∧
      (cs.foldl (checkClass dayName t) acc).1.currentUser = acc.1.currentUser ∧
      (cs.foldl (checkClass dayName t) acc).1.lastMinute = acc.1.lastMinute ∧
      (cs.foldl (checkClass dayName t) acc).1.notifGranted = acc.1.notifGranted := by
  induction cs with
  | nil => intro acc; exact ⟨rfl, rfl, rfl, rfl⟩
  | cons c cs ih =>
    intro acc
    rw [List.foldl_cons]
    by_cases hg : ¬ c.active = true ∨ dayName ∉ c.days
    · rw [checkClass_of_guard dayName t acc hg]
      exact ih acc
    · by_cases hh : hhmm t = c.endTime ∧ c.id ∉ acc.1.fired
      · rw [checkClass_of_hit dayName t acc hg hh]
        simpa using ih _
      · rw [checkClass_of_miss dayName t acc hg hh]
        exact ih acc

lemma checkFold_fired (cs : List SchoolClass) :
    ∀ (st : EngineState) (log : List Emitted) (x : String),
      (x ∈ (cs.foldl (checkClass dayName t) (st, log)).1.fired ↔
        x ∈ st.fired ∨ ∃ cc ∈ cs, cc.id = x ∧ staticHit dayName t cc) := by
  induction cs with
  | nil =>
    intro st log x
    simp
  | cons c cs ih =>
    intro st log x
    rw [List.foldl_cons]
    by_cases hg : ¬ c.active = true ∨ dayName ∉ c.days
    · rw [checkClass_of_guard dayName t (st, log) hg]
      rw [ih st log x]
      have hns : ¬ staticHit dayName t c := by
        unfold staticHit
        rcases hg with hg | hg
        · intro hs; exact hg hs.1
        · intro hs; exact hg hs.2.1
      constructor
      · rintro (h | ⟨cc, hcc, hid, hs⟩)
        · exact Or.inl h
        · exact Or.inr ⟨cc, List.mem_cons_of_mem _ hcc, hid, hs⟩
      · rintro (h | ⟨cc, hcc, hid, hs⟩)
        · exact Or.inl h
        · rcases List.mem_cons.mp hcc with rfl | hcc
          · exact absurd hs hns
          · exact Or.inr ⟨cc, hcc, hid, hs⟩
    · have hact : c.active = true ∧ dayName ∈ c.days := by
        constructor
        · by_contra hx; exact hg (Or.inl hx)
        · by_contra hx; exact hg (Or.inr hx)
      by_cases hh : hhmm t = c.endTime ∧ c.id ∉ (st, log).1.fired
      · rw [checkClass_of_hit dayName t (st, log) hg hh]
        have hstatic : staticHit dayName t c := ⟨hact.1, hact.2, hh.1⟩
        rw [ih _ _ x]
        simp only [triggerAlarm_fired, List.mem_cons]
        constructor
        · rintro ((rfl | h) | ⟨cc, hcc, hid, hs⟩)
          · exact Or.inr ⟨c, Or.inl rfl, rfl, hstatic⟩
          · exact Or.inl h
          · exact Or.inr ⟨cc, Or.inr hcc, hid, hs⟩
        · rintro (h | ⟨cc, hcc, hid, hs⟩)
          · exact Or.inl (Or.inr h)
          · rcases hcc with rfl | hcc
            · exact Or.inl (Or.inl hid.symm)
            · exact Or.inr ⟨cc, hcc, hid, hs⟩
      · rw [checkClass_of_miss dayName t (st, log) hg hh]
        rw [ih st log x]
        constructor
        · rintro (h | ⟨cc, hcc, hid, hs⟩)
          · exact Or.inl h
          · exact Or.inr ⟨cc, List.mem_cons_of_mem _ hcc, hid, hs⟩
        · rintro (h | ⟨cc, hcc, hid, hs⟩)
          · exact Or.inl h
          · rcases List.mem_cons.mp hcc with rfl | hcc
            · rcases not_and_or.mp hh with hne | hmem
              · exact absurd hs.2.2 hne
              · rw [not_not] at hmem
                exact Or.inl (hid ▸ hmem)
            · exact Or.inr ⟨cc, hcc, hid, hs⟩

lemma countTriggers_notifs (x n : String) (b : Bool) :
    countTriggers x (if b = true then [Emitted.notified n] else []) = 0 := by
  cases b <;> simp [countTriggers, isTriggerOf]

lemma checkFold_count (cs : List SchoolClass) :
    ∀ (st : EngineState) (log : List Emitted) (x : String),
      countTriggers x (cs.foldl (checkClass dayName t) (st, log)).2 =
        countTriggers x log +
          (if x ∉ st.fired ∧ ∃ cc ∈ cs, cc.id = x ∧ staticHit dayName t cc
           then 1 else 0) := by
  induction cs with
  | nil =>
    intro st log x
    simp
  | cons c cs ih =>
    intro st log x
    rw [List.foldl_cons]
    by_cases hg : ¬ c.active = true ∨ dayName ∉ c.days
    · rw [checkClass_of_guard dayName t (st, log) hg]
      rw [ih st log x]
      have hns : ¬ staticHit dayName t c := by
        unfold staticHit
        rcases hg with hg | hg
        · intro hs; exact hg hs.1
        · intro hs; exact hg hs.2.1
      congr 1
      apply if_congr _ rfl rfl
      constructor
      · rintro ⟨hf, cc, hcc, hid, hs⟩
        exact ⟨hf, cc, List.mem_cons_of_mem _ hcc, hid, hs⟩
      · rintro ⟨hf, cc, hcc, hid, hs⟩
        rcases List.mem_cons.mp hcc with rfl | hcc
        · exact absurd hs hns
        · exact ⟨hf, cc, hcc, hid, hs⟩
    · have hact : c.active = true ∧ dayName ∈ c.days := by
        constructor
        · by_contra hx; exact hg (Or.inl hx)
        · by_contra hx; exact hg (Or.inr hx)
      by_cases hh : hhmm t = c.endTime ∧ c.id ∉ (st, log).1.fired
      · rw [checkClass_of_hit dayName t (st, log) hg hh]
        have hstatic : staticHit dayName t c := ⟨hact.1, hact.2, hh.1⟩
        rw [ih _ _ x]
        rw [countTriggers_append, countTriggers_entry, countTriggers_notifs]
        simp only [triggerAlarm_fired]
        by_cases hx : c.id = x
        · subst hx
          have h1 : ¬ (c.id ∉ ({ st with fired := c.id :: st.fired } :
              EngineState).fired ∧
              ∃ cc ∈ cs, cc.id = c.id ∧ staticHit dayName t cc) := by
            rintro ⟨hm, -⟩
            exact hm (List.mem_cons_self _ _)
          have h2 : c.id ∉ st.fired ∧
              ∃ cc ∈ c :: cs, cc.id = c.id ∧ staticHit dayName t cc :=
            ⟨hh.2, c, List.mem_cons_self _ _, rfl, hstatic⟩
          rw [if_neg h1, if_pos h2, if_pos rfl]
        · rw [if_neg hx]
          have hiff :
              (x ∉ ({ st with fired := c.id :: st.fired } : EngineState).fired ∧
                ∃ cc ∈ cs, cc.id = x ∧ staticHit dayName t cc) ↔
              (x ∉ st.fired ∧ ∃ cc ∈ c :: cs, cc.id = x ∧ staticHit dayName t cc) := by
            constructor
            · rintro ⟨hf, cc, hcc, hid, hs⟩
              refine ⟨fun hm => hf (List.mem_cons_of_mem _ hm),
                cc, List.mem_cons_of_mem _ hcc, hid, hs⟩
            · rintro ⟨hf, cc, hcc, hid, hs⟩
              rcases List.mem_cons.mp hcc with rfl | hcc
              · exact absurd hid hx
              · refine ⟨fun hm => ?_, cc, hcc, hid, hs⟩
                rcases List.mem_cons.mp hm with rfl | hm
                · exact hx rfl
                · exact hf hm
          rw [if_congr hiff rfl rfl]
          omega
      · rw [checkClass_of_miss dayName t (st, log) hg hh]
        rw [ih st log x]
        congr 1
        apply if_congr _ rfl rfl
        constructor
        · rintro ⟨hf, cc, hcc, hid, hs⟩
          exact ⟨hf, cc, List.mem_cons_of_mem _ hcc, hid, hs⟩
        · rintro ⟨hf, cc, hcc, hid, hs⟩
          rcases List.mem_cons.mp hcc with rfl | hcc
          · rcases not_and_or.mp hh with hne | hmem
            · exact absurd hs.2.2 hne
            · rw [not_not] at hmem
              exact absurd (hid ▸ hmem) hf
          · exact ⟨hf, cc, hcc, hid, hs⟩

end FoldLemmas

section TickLemmas

variable (d : String) (t : Nat)

@[simp] lemma rollState_classes (st : EngineState) :
    (rollState st t).classes = st.classes := by
  unfold rollState; split <;> rfl

@[simp] lemma rollState_currentUser (st : EngineState) :
    (rollState st t).currentUser = st.currentUser := by
  unfold rollState; split <;> rfl

@[simp] lemma rollState_activeAlarm (st : EngineState) :
    (rollState st t).activeAlarm = st.activeAlarm := by
  unfold rollState; split <;> rfl

@[simp] lemma rollState_notifGranted (st : EngineState) :
    (rollState st t).notifGranted = st.notifGranted := by
  unfold rollState; split <;> rfl

lemma rollState_lastMinute (st : EngineState) :
    (rollState st t).lastMinute = ((getMinutes t : Nat) : Int) := by
  unfold rollState
  split
  · rfl
  · next h => rw [not_not] at h; exact h.symm

lemma rollState_fired (st : EngineState) :
    (rollState st t).fired = baseFired st t := by
  unfold rollState baseFired
  by_cases h : ((getMinutes t : Nat) : Int) = st.lastMinute
  · rw [if_neg (not_not_intro h), if_pos h]
  · rw [if_pos h, if_neg h]

lemma checkAlarms_skip {st : EngineState}
    (h : st.currentUser = none ∨ st.activeAlarm ≠ none) :
    checkAlarms d t st = (st, []) := by
  unfold checkAlarms
  rw [if_pos h]

lemma checkAlarms_open {st : EngineState} (hu : st.currentUser ≠ none)
    (ha : st.activeAlarm = none) :
    checkAlarms d t st =
      st.classes.foldl (checkClass d t) (rollState st t, []) := by
  unfold checkAlarms
  rw [if_neg (by push_neg; exact ⟨hu, ha⟩), rollState_classes]

lemma checkAlarms_lastMinute {st : EngineState} (hu : st.currentUser ≠ none)
    (ha : st.activeAlarm = none) :
    (checkAlarms d t st).1.lastMinute = ((getMinutes t : Nat) : Int) := by
  rw [checkAlarms_open d t hu ha]
  rw [(checkFold_preserves d t st.classes (rollState st t, [])).2.2.1]
  exact rollState_lastMinute t st

lemma checkAlarms_fired {st : EngineState} (hu : st.currentUser ≠ none)
    (ha : st.activeAlarm = none) (x : String) :
    x ∈ (checkAlarms d t st).1.fired ↔
      x ∈ baseFired st t ∨ ∃ cc ∈ st.classes, cc.id = x ∧ staticHit d t cc := by
  rw [checkAlarms_open d t hu ha]
  rw [checkFold_fired d t st.classes (rollState st t) [] x]
  rw [rollState_fired]

lemma checkAlarms_count {st : EngineState} (hu : st.currentUser ≠ none)
    (ha : st.activeAlarm = none) (x : String) :
    countTriggers x (checkAlarms d t st).2 =
      if x ∉ baseFired st t ∧ ∃ cc ∈ st.classes, cc.id = x ∧ staticHit d t cc
      then 1 else 0 := by
  rw [checkAlarms_open d t hu ha]
  rw [checkFold_count d t st.classes (rollState st t) [] x]
  rw [rollState_fired]
  simp

lemma checkAlarms_classes (st : EngineState) :
    (checkAlarms d t st).1.classes = st.classes := by
  unfold checkAlarms
  split
  · rfl
  · rw [(checkFold_preserves d t (rollState st t).classes (rollState st t, [])).1]
    exact rollState_classes t st

lemma checkAlarms_currentUser (st : EngineState) :
    (checkAlarms d t st).1.currentUser = st.currentUser := by
  unfold checkAlarms
  split
  · rfl
  · rw [(checkFold_preserves d t (rollState st t).classes (rollState st t, [])).2.1]
    exact rollState_currentUser t st

lemma systemTick_classes (acc : EngineState × List Emitted) :
    (systemTick d acc t).1.classes = acc.1.classes := by
  unfold systemTick
  rw [checkAlarms_classes, fireDueTimers_classes]

lemma systemTick_currentUser (acc : EngineState × List Emitted) :
    (systemTick d acc t).1.currentUser = acc.1.currentUser := by
  unfold systemTick
  rw [checkAlarms_currentUser, fireDueTimers_currentUser]

lemma sysFold_classes (ticks : List Nat) :
    ∀ acc : EngineState × List Emitted,
      (ticks.foldl (systemTick d) acc).1.classes = acc.1.classes := by
  induction ticks with
  | nil => intro acc; rfl
  | cons t₀ ticks ih =>
    intro acc
    rw [List.foldl_cons, ih, systemTick_classes]

lemma sysFold_log_mono (cid : String) (ticks : List Nat) :
    ∀ acc : EngineState × List Emitted,
      countTriggers cid acc.2 ≤ countTriggers cid (ticks.foldl (systemTick d) acc).2 := by
  induction ticks with
  | nil => intro acc; exact le_refl _
  | cons t₀ ticks ih =>
    intro acc
    rw [List.foldl_cons]
    refine le_trans ?_ (ih _)
    unfold systemTick
    rw [countTriggers_append]
    omega

end TickLemmas

section OncePerDay

lemma exists_id_static {d : String} {t : Nat} {cls : List SchoolClass}
    {c : SchoolClass} (hnd : (cls.map SchoolClass.id).Nodup) (hc : c ∈ cls) :
    (∃ cc ∈ cls, cc.id = c.id ∧ staticHit d t cc) ↔ staticHit d t c := by
  constructor
  · rintro ⟨cc, hcc, hid, hs⟩
    have : cc = c := List.inj_on_of_nodup_map hnd hcc hc hid
    exact this ▸ hs
  · intro hs
    exact ⟨c, hc, rfl, hs⟩

/-- Invariant carried through a day's tick run for a fixed class: the log
holds at most one trigger for the class, and when it holds exactly one,
either the class id is still in the fired set with the last-seen minute
equal to the trigger minute, or no remaining tick can match the class end
time again. -/
def C1Inv (c : SchoolClass) (st : EngineState) (log : List Emitted)
    (ticks : List Nat) : Prop :=
  countTriggers c.id log ≤ 1 ∧
  (countTriggers c.id log = 1 →
    (∃ t₀, t₀ < 86400000 ∧ hhmm t₀ = c.endTime ∧ (∀ t' ∈ ticks, t₀ ≤ t') ∧
      c.id ∈ st.fired ∧ st.lastMinute = ((getMinutes t₀ : Nat) : Int)) ∨
    (∀ t' ∈ ticks, hhmm t' ≠ c.endTime))

lemma getMinutes_eq_of_div {t t₀ : Nat} (h : t / 60000 = t₀ / 60000) :
    getMinutes t = getMinutes t₀ := by
  unfold getMinutes
  rw [h]

lemma C1_atMostOnce_aux (d : String) (c : SchoolClass) :
    ∀ (ticks : List Nat) (st : EngineState) (log : List Emitted),
      (∀ t' ∈ ticks, t' < 86400000) → ticks.Pairwise (· ≤ ·) →
      (st.classes.map SchoolClass.id).Nodup → c ∈ st.classes →
      C1Inv c st log ticks →
      countTriggers c.id (ticks.foldl (systemTick d) (st, log)).2 ≤ 1 := by
  intro ticks
  induction ticks with
  | nil =>
    intro st log _ _ _ _ hinv
    exact hinv.1
  | cons t ticks ih =>
    intro st log hb hp hnd hc hinv
    have hbt : t < 86400000 := hb t (List.mem_cons_self _ _)
    have hb' : ∀ t' ∈ ticks, t' < 86400000 :=
      fun t' ht' => hb t' (List.mem_cons_of_mem _ ht')
    have hple : ∀ t' ∈ ticks, t ≤ t' := (List.pairwise_cons.mp hp).1
    have hp' : ticks.Pairwise (· ≤ ·) := (List.pairwise_cons.mp hp).2
    rw [List.foldl_cons]
    have hstep : systemTick d (st, log) t =
        ((checkAlarms d t (fireDueTimers t st)).1,
          log ++ (checkAlarms d t (fireDueTimers t st)).2) := rfl
    set stA := fireDueTimers t st with hstA
    have hAfired : stA.fired = st.fired := fireDueTimers_fired t st
    have hAlm : stA.lastMinute = st.lastMinute := fireDueTimers_lastMinute t st
    have hAcls : stA.classes = st.classes := fireDueTimers_classes t st
    by_cases hguard : stA.currentUser = none ∨ stA.activeAlarm ≠ none
    · rw [hstep, checkAlarms_skip d t hguard, List.append_nil]
      refine ih stA log hb' hp' (hAcls ▸ hnd) (hAcls ▸ hc) ⟨hinv.1, ?_⟩
      intro h1
      rcases hinv.2 h1 with ⟨t₀, h₁, h₂, h₃, h₄, h₅⟩ | hC
      · exact Or.inl ⟨t₀, h₁, h₂,
          fun t' ht' => h₃ t' (List.mem_cons_of_mem _ ht'),
          hAfired ▸ h₄, hAlm ▸ h₅⟩
      · exact Or.inr fun t' ht' => hC t' (List.mem_cons_of_mem _ ht')
    · push_neg at hguard
      obtain ⟨hu, ha⟩ := hguard
      have hcA : c ∈ stA.classes := hAcls ▸ hc
      have hndA : (stA.classes.map SchoolClass.id).Nodup := hAcls ▸ hnd
      have hcnt : countTriggers c.id (log ++ (checkAlarms d t stA).2) =
          countTriggers c.id log +
            (if c.id ∉ baseFired stA t ∧ staticHit d t c then 1 else 0) := by
        rw [countTriggers_append, checkAlarms_count d t hu ha]
        have hiff : (c.id ∉ baseFired stA t ∧
            ∃ cc ∈ stA.classes, cc.id = c.id ∧ staticHit d t cc) ↔
            (c.id ∉ baseFired stA t ∧ staticHit d t c) :=
          and_congr_right fun _ => exists_id_static hndA hcA
        rw [if_congr hiff rfl rfl]
      have hBlm : (checkAlarms d t stA).1.lastMinute =
          ((getMinutes t : Nat) : Int) := checkAlarms_lastMinute d t hu ha
      have hBcls : (checkAlarms d t stA).1.classes = st.classes := by
        rw [checkAlarms_classes, hAcls]
      by_cases hadd : c.id ∉ baseFired stA t ∧ staticHit d t c
      · -- the class triggers on this tick
        have hzero : countTriggers c.id log = 0 := by
          rcases Nat.lt_or_ge (countTriggers c.id log) 1 with h | h
          · omega
          · exfalso
            have h1 : countTriggers c.id log = 1 := le_antisymm hinv.1 h
            rcases hinv.2 h1 with ⟨t₀, hd₀, he₀, hle₀, hf₀, hlm₀⟩ | hC
            · have hdiv : t / 60000 = t₀ / 60000 :=
                (hhmm_eq_iff hbt hd₀).mp (hadd.2.2.2.trans he₀.symm)
              have hmeq : getMinutes t = getMinutes t₀ := getMinutes_eq_of_div hdiv
              have hbase : baseFired stA t = stA.fired := by
                unfold baseFired
                rw [if_pos]
                rw [hmeq, hAlm, hlm₀]
              exact hadd.1 (hbase ▸ (hAfired ▸ hf₀))
            · exact hC t (List.mem_cons_self _ _) hadd.2.2.2
        rw [hstep]
        refine ih _ _ hb' hp' (hBcls ▸ hnd) (hBcls ▸ hc) ⟨?_, ?_⟩
        · rw [hcnt, if_pos hadd, hzero]
        · intro _
          refine Or.inl ⟨t, hbt, hadd.2.2.2, hple, ?_, hBlm⟩
          rw [checkAlarms_fired d t hu ha c.id]
          exact Or.inr ⟨c, hcA, rfl, hadd.2⟩
      · -- no trigger for the class on this tick
        have hsame : countTriggers c.id (log ++ (checkAlarms d t stA).2) =
            countTriggers c.id log := by
          rw [hcnt, if_neg hadd]
          omega
        rw [hstep]
        rcases Nat.lt_or_ge (countTriggers c.id log) 1 with h | h
        · refine ih _ _ hb' hp' (hBcls ▸ hnd) (hBcls ▸ hc) ⟨?_, ?_⟩
          · rw [hsame]; omega
          · intro h1; rw [hsame] at h1; omega
        · have h1 : countTriggers c.id log = 1 := le_antisymm hinv.1 h
          refine ih _ _ hb' hp' (hBcls ▸ hnd) (hBcls ▸ hc) ⟨?_, ?_⟩
          · rw [hsame]; omega
          · intro _
            rcases hinv.2 h1 with ⟨t₀, hd₀, he₀, hle₀, hf₀, hlm₀⟩ | hC
            · by_cases hmt : ((getMinutes t : Nat) : Int) = stA.lastMinute
              · refine Or.inl ⟨t₀, hd₀, he₀,
                  fun t' ht' => hle₀ t' (List.mem_cons_of_mem _ ht'), ?_, ?_⟩
                · rw [checkAlarms_fired d t hu ha c.id]
                  refine Or.inl ?_
                  unfold baseFired
                  rw [if_pos hmt, hAfired]
                  exact hf₀
                · rw [hBlm, hmt, hAlm, hlm₀]
              · refine Or.inr ?_
                intro t' ht' heq
                have hdiv : t' / 60000 = t₀ / 60000 :=
                  (hhmm_eq_iff (hb' t' ht') hd₀).mp (heq.trans he₀.symm)
                have hdiv' : t / 60000 = t₀ / 60000 :=
                  div_sandwich (hle₀ t (List.mem_cons_self _ _)) (hple t' ht') hdiv.symm
                have hmeq : getMinutes t = getMinutes t₀ := getMinutes_eq_of_div hdiv'
                apply hmt
                rw [hmeq, hAlm, hlm₀]
            · exact Or.inr fun t' ht' => hC t' (List.mem_cons_of_mem _ ht')

lemma baseFired_subset {st : EngineState} {t : Nat} {x : String}
    (h : x ∈ baseFired st t) : x ∈ st.fired := by
  unfold baseFired at h
  split at h
  · exact h
  · cases h

lemma sysFold_currentUser (d : String) (ticks : List Nat) :
    ∀ acc : EngineState × List Emitted,
      (ticks.foldl (systemTick d) acc).1.currentUser = acc.1.currentUser := by
  induction ticks with
  | nil => intro acc; rfl
  | cons t₀ ticks ih =>
    intro acc
    rw [List.foldl_cons, ih, systemTick_currentUser]

lemma C1_fired_counted_aux (d : String) (c : SchoolClass) :
    ∀ (ticks : List Nat) (st : EngineState) (log : List Emitted),
      (c.id ∈ st.fired → 1 ≤ countTriggers c.id log) →
      c.id ∈ (ticks.foldl (systemTick d) (st, log)).1.fired →
      1 ≤ countTriggers c.id (ticks.foldl (systemTick d) (st, log)).2 := by
  intro ticks
  induction ticks with
  | nil =>
    intro st log hJ hm
    exact hJ hm
  | cons t ticks ih =>
    intro st log hJ
    rw [List.foldl_cons]
    have hstep : systemTick d (st, log) t =
        ((checkAlarms d t (fireDueTimers t st)).1,
          log ++ (checkAlarms d t (fireDueTimers t st)).2) := rfl
    set stA := fireDueTimers t st with hstA
    rw [hstep]
    by_cases hguard : stA.currentUser = none ∨ stA.activeAlarm ≠ none
    · rw [checkAlarms_skip d t hguard, List.append_nil]
      exact ih stA log fun hm => hJ ((fireDueTimers_fired t st) ▸ hm)
    · push_neg at hguard
      obtain ⟨hu, ha⟩ := hguard
      refine ih _ _ ?_
      intro hm
      rw [checkAlarms_fired d t hu ha c.id] at hm
      rw [countTriggers_append, checkAlarms_count d t hu ha]
      rcases hm with hm | hE
      · have h1 : 1 ≤ countTriggers c.id log :=
          hJ ((fireDueTimers_fired t st) ▸ baseFired_subset hm)
        omega
      · by_cases hbase : c.id ∈ baseFired stA t
        · have h1 : 1 ≤ countTriggers c.id log :=
            hJ ((fireDueTimers_fired t st) ▸ baseFired_subset hbase)
          omega
        · rw [if_pos ⟨hbase, hE⟩]
          omega

end OncePerDay

section ClaimC1

/-- The claims are stated against runs from the component-start state with
a logged-in user. -/
def dayRun (d : String) (classes : List SchoolClass) (user : String)
    (notif : Bool) (ticks : List Nat) : EngineState × List Emitted :=
  systemRun d (initState (some user) classes notif) ticks

/-- C1 (amended): over any chronological tick sequence within one day,
with distinct class ids, each class triggers at most once; and it triggers
at least once provided some tick of the sequence lands on the class's end
minute at a moment when no alarm is already ringing (a tick processed
while an alarm rings is dropped by the guard, so coverage of the end
minute alone does not guarantee firing). -/
theorem C1_per_day_firing (d : String) (classes : List SchoolClass)
    (c : SchoolClass) (user : String) (notif : Bool) (ticks : List Nat)
    (hb : ∀ t' ∈ ticks, t' < 86400000) (hs : ticks.Pairwise (· ≤ ·))
    (hnd : (classes.map SchoolClass.id).Nodup) (hc : c ∈ classes) :
    countTriggers c.id (dayRun d classes user notif ticks).2 ≤ 1 ∧
    (∀ pre t rest, ticks = pre ++ t :: rest →
      hhmm t = c.endTime → c.active = true → d ∈ c.days →
      (fireDueTimers t (dayRun d classes user notif pre).1).activeAlarm = none →
      1 ≤ countTriggers c.id (dayRun d classes user notif ticks).2) := by
  constructor
  · refine C1_atMostOnce_aux d c ticks _ [] hb hs hnd hc ⟨by simp, ?_⟩
    intro h1
    simp at h1
  · intro pre t rest heq hend hact hday ha
    subst heq
    unfold dayRun systemRun
    rw [List.foldl_append, List.foldl_cons]
    set st0 := initState (some user) classes notif with hst0
    set accP := pre.foldl (systemTick d) (st0, []) with haccP
    have haccPp : accP = (accP.1, accP.2) := rfl
    have hPcls : accP.1.classes = classes := by
      rw [haccP]
      exact sysFold_classes d pre (st0, [])
    have hPuser : accP.1.currentUser = some user := by
      rw [haccP]
      exact sysFold_currentUser d pre (st0, [])
    set stA := fireDueTimers t accP.1 with hstA
    have hu : stA.currentUser ≠ none := by
      rw [hstA, fireDueTimers_currentUser, hPuser]
      simp
    have ha' : stA.activeAlarm = none := ha
    have hstep : systemTick d accP t =
        ((checkAlarms d t stA).1, accP.2 ++ (checkAlarms d t stA).2) := by
      rw [haccPp]
      rfl
    rw [hstep]
    have hstatic : staticHit d t c := ⟨hact, hday, hend⟩
    have hcA : c ∈ stA.classes := by
      rw [hstA, fireDueTimers_classes, hPcls]
      exact hc
    have hJ : c.id ∈ accP.1.fired → 1 ≤ countTriggers c.id accP.2 := by
      rw [haccP]
      refine C1_fired_counted_aux d c pre st0 [] ?_
      intro hm
      simp [hst0, initState] at hm
    have h1 : 1 ≤ countTriggers c.id (accP.2 ++ (checkAlarms d t stA).2) := by
      rw [countTriggers_append, checkAlarms_count d t hu ha']
      by_cases hbase : c.id ∈ baseFired stA t
      · have := hJ ((fireDueTimers_fired t accP.1) ▸ baseFired_subset hbase)
        omega
      · rw [if_pos ⟨hbase, c, hcA, rfl, hstatic⟩]
        omega
    calc 1 ≤ countTriggers c.id (accP.2 ++ (checkAlarms d t stA).2) := h1
      _ ≤ _ := sysFold_log_mono d c.id rest
        ((checkAlarms d t stA).1, accP.2 ++ (checkAlarms d t stA).2)

end ClaimC1

section CounterexampleRun

/-- A class ending at 08:29, used to keep the alarm ringing into the
08:30 minute. -/
def classX : SchoolClass :=
  { id := "X", name := "رياضيات", startTime := "08:00", endTime := "08:29",
    days := ["الأحد"], active := true }

/-- A class ending at 08:30 whose alarm the run below misses. -/
def classA : SchoolClass :=
  { id := "A", name := "علوم", startTime := "07:30", endTime := "08:30",
    days := ["الأحد"], active := true }

def classesCE : List SchoolClass := [classX, classA]

def dayCE : String := "الأحد"

/-- One tick per minute of the day: at second 45 of minute 509 (08:29:45),
at second 3 of minute 510 (08:30:03), at second 0 of every other minute. -/
def tickOfMinute (m : Nat) : Nat :=
  60000 * m + (if m = 509 then 45000 else if m = 510 then 3000 else 0)

/-- The full-day tick sequence: 1440 ticks, one in each minute. -/
def ticksCE : List Nat := (List.range 1440).map tickOfMinute

def chunkCE (a n : Nat) : List Nat := (List.range' a n).map tickOfMinute

/-- The engine state during the counterexample run: only the last-seen
minute and the timer counter vary across quiet stretches. -/
def stCEAt (lm : Int) (ntid : Nat) : EngineState :=
  { currentUser := some "u"
    classes := classesCE
    activeAlarm := none
    isTestingSound := false
    fired := []
    lastMinute := lm
    timers := []
    timerRef := none
    nextTimerId := ntid
    notifGranted := true }

/-- The only events the counterexample run emits: the 08:29 class fires
and notifies; the 08:30 class never appears. -/
def logCE : List Emitted :=
  [Emitted.triggered "X" "رياضيات" AlarmHitType.endHit,
   Emitted.notified "رياضيات"]

set_option maxRecDepth 400000

lemma runCE₁ : List.foldl (systemTick dayCE)
    (initState (some "u") classesCE true, []) (chunkCE 0 100) =
    (stCEAt 39 0, []) := by rfl

lemma runCE₂ : List.foldl (systemTick dayCE) (stCEAt 39 0, []) (chunkCE 100 100) =
    (stCEAt 19 0, []) := by rfl

lemma runCE₃ : List.foldl (systemTick dayCE) (stCEAt 19 0, []) (chunkCE 200 100) =
    (stCEAt 59 0, []) := by rfl

lemma runCE₄ : List.foldl (systemTick dayCE) (stCEAt 59 0, []) (chunkCE 300 100) =
    (stCEAt 39 0, []) := by rfl

lemma runCE₅ : List.foldl (systemTick dayCE) (stCEAt 39 0, []) (chunkCE 400 100) =
    (stCEAt 19 0, []) := by rfl

lemma runCE₆ : List.foldl (systemTick dayCE) (stCEAt 19 0, []) (chunkCE 500 100) =
    (stCEAt 59 1, logCE) := by rfl

lemma runCE₇ : List.foldl (systemTick dayCE) (stCEAt 59 1, logCE) (chunkCE 600 100) =
    (stCEAt 39 1, logCE) := by rfl

lemma runCE₈ : List.foldl (systemTick dayCE) (stCEAt 39 1, logCE) (chunkCE 700 100) =
    (stCEAt 19 1, logCE) := by rfl

lemma runCE₉ : List.foldl (systemTick dayCE) (stCEAt 19 1, logCE) (chunkCE 800 100) =
    (stCEAt 59 1, logCE) := by rfl

lemma runCE₁₀ : List.foldl (systemTick dayCE) (stCEAt 59 1, logCE) (chunkCE 900 100) =
    (stCEAt 39 1, logCE) := by rfl

lemma runCE₁₁ : List.foldl (systemTick dayCE) (stCEAt 39 1, logCE) (chunkCE 1000 100) =
    (stCEAt 19 1, logCE) := by rfl

lemma runCE₁₂ : List.foldl (systemTick dayCE) (stCEAt 19 1, logCE) (chunkCE 1100 100) =
    (stCEAt 59 1, logCE) := by rfl

lemma runCE₁₃ : List.foldl (systemTick dayCE) (stCEAt 59 1, logCE) (chunkCE 1200 100) =
    (stCEAt 39 1, logCE) := by rfl

lemma runCE₁₄ : List.foldl (systemTick dayCE) (stCEAt 39 1, logCE) (chunkCE 1300 100) =
    (stCEAt 19 1, logCE) := by rfl

lemma runCE₁₅ : List.foldl (systemTick dayCE) (stCEAt 19 1, logCE) (chunkCE 1400 40) =
    (stCEAt 59 1, logCE) := by rfl

lemma ticksCE_split : ticksCE =
    chunkCE 0 100 ++ (chunkCE 100 100 ++ (chunkCE 200 100 ++ (chunkCE 300 100 ++
    (chunkCE 400 100 ++ (chunkCE 500 100 ++ (chunkCE 600 100 ++ (chunkCE 700 100 ++
    (chunkCE 800 100 ++ (chunkCE 900 100 ++ (chunkCE 1000 100 ++ (chunkCE 1100 100 ++
    (chunkCE 1200 100 ++ (chunkCE 1300 100 ++ chunkCE 1400 40))))))))))))) := by rfl

lemma runCE_value : dayRun dayCE classesCE "u" true ticksCE = (stCEAt 59 1, logCE) := by
  unfold dayRun systemRun
  rw [ticksCE_split]
  rw [List.foldl_append, runCE₁]
  rw [List.foldl_append, runCE₂]
  rw [List.foldl_append, runCE₃]
  rw [List.foldl_append, runCE₄]
  rw [List.foldl_append, runCE₅]
  rw [List.foldl_append, runCE₆]
  rw [List.foldl_append, runCE₇]
  rw [List.foldl_append, runCE₈]
  rw [List.foldl_append, runCE₉]
  rw [List.foldl_append, runCE₁₀]
  rw [List.foldl_append, runCE₁₁]
  rw [List.foldl_append, runCE₁₂]
  rw [List.foldl_append, runCE₁₃]
  rw [List.foldl_append, runCE₁₄]
  rw [runCE₁₅]

end CounterexampleRun

set_option maxRecDepth 400000 in
/-- C1 counterexample: a tick sequence with one tick in every minute of
the day (so it covers the day), over two enabled Sunday classes ending at
08:29 and 08:30. The 08:29 alarm starts ringing at the 08:29:45 tick and
auto-stops only at 08:30:05, so the single tick of the 08:30 minute
(08:30:03) is dropped by the already-ringing guard and the 08:30 class is
never triggered that day, refuting the no-miss half of the claim. -/
theorem C1_counterexample :
    ticksCE = (List.range 1440).map tickOfMinute ∧
    ((List.range 1440).all fun m => decide (tickOfMinute m / 60000 = m)) = true ∧
    classA ∈ classesCE ∧ classA.active = true ∧ dayCE ∈ classA.days ∧
    classA.endTime = "08:30" ∧
    countTriggers classA.id (dayRun dayCE classesCE "u" true ticksCE).2 = 0 := by
  refine ⟨rfl, by rfl, by decide, rfl, by decide, rfl, ?_⟩
  rw [runCE_value]
  rfl

/-- C1 witness: the at-most-once half applied to a concrete one-tick run. -/
theorem C1_witness :
    countTriggers classA.id (dayRun dayCE [classA] "u" true [30600000]).2 ≤ 1 :=
  (C1_per_day_firing dayCE [classA] classA "u" true [30600000]
    (by decide) (by decide) (by decide) (by decide)).1

section ClaimC2

/-- State owned by the fired-event dedup logic of checkAlarms: the set of
class ids already fired and the last seen minute (src/App.tsx lines
40-42). -/
structure TrackerState where
  fired : List String
  lastMinute : Int
deriving DecidableEq

/-- The minute-rollover step of the dedup logic (src/App.tsx lines
262-265), on the tracker state alone. -/
def rollTracker (currentMinute : Int) (st : TrackerState) : TrackerState :=
  if currentMinute ≠ st.lastMinute then
    { fired := [], lastMinute := currentMinute }
  else st

/-- The dedup check as performed per class by checkAlarms (rollover, then
the membership test of src/App.tsx line 270 and the insertion of line
271): a class id fires only when it is not yet in the set, in which case
it is inserted. -/
def shouldFire (classId : String) (currentMinute : Int) (st : TrackerState) :
    Bool × TrackerState :=
  if classId ∈ (rollTracker currentMinute st).fired then
    (false, rollTracker currentMinute st)
  else
    (true, { rollTracker currentMinute st with
      fired := classId :: (rollTracker currentMinute st).fired })

/-- A sequence of dedup checks all made within the same minute, returning
every call's outcome. -/
def runShouldFire (m : Int) (st : TrackerState) (calls : List String) :
    List (String × Bool) × TrackerState :=
  calls.foldl
    (fun acc cid =>
      let r := shouldFire cid m acc.2
      (acc.1 ++ [(cid, r.1)], r.2))
    ([], st)

/-- Number of positive outcomes for a given class id. -/
def countTrueFor (cid : String) (results : List (String × Bool)) : Nat :=
  (results.filter (fun p => p.1 = cid ∧ p.2 = true)).length

lemma countTrueFor_append (cid : String) (l₁ l₂ : List (String × Bool)) :
    countTrueFor cid (l₁ ++ l₂) = countTrueFor cid l₁ + countTrueFor cid l₂ := by
  unfold countTrueFor
  rw [List.filter_append, List.length_append]

lemma rollTracker_lastMinute (m : Int) (st : TrackerState) :
    (rollTracker m st).lastMinute = m := by
  unfold rollTracker
  split
  · rfl
  · next h => rw [not_not] at h; exact h.symm

lemma rollTracker_of_eq {m : Int} {st : TrackerState} (h : m = st.lastMinute) :
    rollTracker m st = st := by
  unfold rollTracker
  rw [if_neg (not_not_intro h)]

lemma shouldFire_lastMinute (c : String) (m : Int) (st : TrackerState) :
    (shouldFire c m st).2.lastMinute = m := by
  unfold shouldFire
  split
  · exact rollTracker_lastMinute m st
  · exact rollTracker_lastMinute m st

lemma shouldFire_mem_self (c : String) (m : Int) (st : TrackerState) :
    c ∈ (shouldFire c m st).2.fired := by
  unfold shouldFire
  split
  · next h => exact h
  · exact List.mem_cons_self _ _

lemma shouldFire_mem_mono {x : String} (c : String) (m : Int) (st : TrackerState)
    (h : x ∈ (rollTracker m st).fired) : x ∈ (shouldFire c m st).2.fired := by
  unfold shouldFire
  split
  · exact h
  · exact List.mem_cons_of_mem _ h

lemma shouldFire_true_not_mem {c : String} {m : Int} {st : TrackerState}
    (h : (shouldFire c m st).1 = true) : c ∉ (rollTracker m st).fired := by
  unfold shouldFire at h
  intro hmem
  rw [if_pos hmem] at h
  cases h

lemma C2_aux (m : Int) (cid : String) :
    ∀ (calls : List String) (st : TrackerState) (res : List (String × Bool)),
      countTrueFor cid res ≤ 1 →
      (1 ≤ countTrueFor cid res → cid ∈ st.fired ∧ st.lastMinute = m) →
      countTrueFor cid
        (calls.foldl
          (fun acc c =>
            let r := shouldFire c m acc.2
            (acc.1 ++ [(c, r.1)], r.2))
          (res, st)).1 ≤ 1 := by
  intro calls
  induction calls with
  | nil =>
    intro st res h1 _
    exact h1
  | cons c calls ih =>
    intro st res h1 h2
    have hroll : 1 ≤ countTrueFor cid res → cid ∈ (rollTracker m st).fired := by
      intro hge
      rcases h2 hge with ⟨hmem, hlm⟩
      rw [rollTracker_of_eq hlm.symm]
      exact hmem
    have hshow : countTrueFor cid
        ((c :: calls).foldl
          (fun acc c =>
            let r := shouldFire c m acc.2
            (acc.1 ++ [(c, r.1)], r.2))
          (res, st)).1 =
        countTrueFor cid
          (calls.foldl
            (fun acc c =>
              let r := shouldFire c m acc.2
              (acc.1 ++ [(c, r.1)], r.2))
            (res ++ [(c, (shouldFire c m st).1)], (shouldFire c m st).2)).1 := rfl
    by_cases hcid : c = cid
    · subst hcid
      cases hb : (shouldFire c m st).1 with
      | true =>
        have hzero : countTrueFor c res = 0 := by
          by_contra hz
          exact shouldFire_true_not_mem hb (hroll (by omega))
        rw [hshow, hb]
        refine ih (shouldFire c m st).2 (res ++ [(c, true)]) ?_ ?_
        · rw [countTrueFor_append, hzero]
          simp [countTrueFor]
        · intro _
          exact ⟨shouldFire_mem_self c m st, shouldFire_lastMinute c m st⟩
      | false =>
        rw [hshow, hb]
        refine ih (shouldFire c m st).2 (res ++ [(c, false)]) ?_ ?_
        · rw [countTrueFor_append]
          have h0 : countTrueFor c [(c, false)] = 0 := by simp [countTrueFor]
          omega
        · intro _
          exact ⟨shouldFire_mem_self c m st, shouldFire_lastMinute c m st⟩
    · have h0 : countTrueFor cid [(c, (shouldFire c m st).1)] = 0 := by
        simp [countTrueFor, hcid]
      rw [hshow]
      refine ih (shouldFire c m st).2 (res ++ [(c, (shouldFire c m st).1)]) ?_ ?_
      · rw [countTrueFor_append]
        omega
      · intro hge
        rw [countTrueFor_append] at hge
        have hprev : 1 ≤ countTrueFor cid res := by omega
        exact ⟨shouldFire_mem_mono c m st (hroll hprev),
          shouldFire_lastMinute c m st⟩

/-- C2: over any sequence of dedup checks performed at one fixed minute,
from any tracker state, a given class id obtains a positive outcome (the
alarm is allowed to fire) at most once, however often identical checks are
repeated within that minute. -/
theorem C2_at_most_once_per_minute (m : Int) (st : TrackerState)
    (calls : List String) (cid : String) :
    countTrueFor cid (runShouldFire m st calls).1 ≤ 1 := by
  unfold runShouldFire
  refine C2_aux m cid calls st [] ?_ ?_
  · simp [countTrueFor]
  · intro h
    simp [countTrueFor] at h

end ClaimC2

section ClaimC3

lemma mem_baseFired_iff (st : EngineState) (t : Nat) (x : String) :
    x ∈ baseFired st t ↔
      ((getMinutes t : Nat) : Int) = st.lastMinute ∧ x ∈ st.fired := by
  unfold baseFired
  by_cases h : ((getMinutes t : Nat) : Int) = st.lastMinute
  · rw [if_pos h]
    exact ⟨fun hm => ⟨h, hm⟩, fun hm => hm.2⟩
  · rw [if_neg h]
    constructor
    · intro hm; cases hm
    · intro hm; exact absurd hm.1 h

/-- C3: on every processed tick (user logged in, no alarm ringing), the
last-seen minute is set to the tick's minute, and the resulting fired set
holds exactly the ids retained from the previous state when the minute is
unchanged (emptied on rollover, before any membership check) together with
the ids inserted by this tick's class checks. -/
theorem C3_minute_rollover (d : String) (t : Nat) (st : EngineState)
    (hu : st.currentUser ≠ none) (ha : st.activeAlarm = none) :
    (checkAlarms d t st).1.lastMinute = ((getMinutes t : Nat) : Int) ∧
    ∀ x, x ∈ (checkAlarms d t st).1.fired ↔
      ((((getMinutes t : Nat) : Int) = st.lastMinute ∧ x ∈ st.fired) ∨
        ∃ cc ∈ st.classes, cc.id = x ∧ cc.active = true ∧ d ∈ cc.days ∧
          hhmm t = cc.endTime) := by
  constructor
  · exact checkAlarms_lastMinute d t hu ha
  · intro x
    rw [checkAlarms_fired d t hu ha x, mem_baseFired_iff]
    unfold staticHit
    exact Iff.rfl

/-- C3 witness: a rollover tick at 08:30 from a state whose fired set
holds a stale id from minute 29: the stale id is dropped, the minute is
updated, and the matching class id is inserted. -/
def stC3 : EngineState :=
  { currentUser := some "u"
    classes := [{ id := "6", name := "فن", startTime := "08:00",
                  endTime := "08:30", days := ["الأحد"], active := true }]
    activeAlarm := none
    isTestingSound := false
    fired := ["stale"]
    lastMinute := 29
    timers := []
    timerRef := none
    nextTimerId := 0
    notifGranted := false }

theorem C3_witness :
    (checkAlarms "الأحد" 30600000 stC3).1.lastMinute = ((30 : Nat) : Int) :=
  (C3_minute_rollover "الأحد" 30600000 stC3 (by decide) (by decide)).1

end ClaimC3

section ClaimC10

/-- C10: when no user is logged in or an alarm is already active, a clock
tick is a complete no-op for the engine: the state (fired set, last-seen
minute, alarm, everything else) is returned unchanged and no trigger or
notification is emitted. -/
theorem C10_guard_frame (d : String) (t : Nat) (st : EngineState)
    (h : st.currentUser = none ∨ st.activeAlarm ≠ none) :
    checkAlarms d t st = (st, []) :=
  checkAlarms_skip d t h

/-- C10 witness: a tick with no user logged in changes nothing. -/
def stC10 : EngineState := initState none [] true

theorem C10_witness : checkAlarms "الأحد" 30600000 stC10 = (stC10, []) :=
  C10_guard_frame "الأحد" 30600000 stC10 (Or.inl rfl)

end ClaimC10

section ClaimC4

/-- A schedule alarm ringing while the test-sound flag is off, as after a
schedule trigger. -/
def stC4 : EngineState :=
  { currentUser := some "u"
    classes := []
    activeAlarm := some { isActive := true, className := "رياضيات",
                          type := AlarmHitType.endHit }
    isTestingSound := false
    fired := []
    lastMinute := 30
    timers := [(0, 30620000)]
    timerRef := some 0
    nextTimerId := 1
    notifGranted := true }

/-- C4 counterexample: pressing the test-sound button while a schedule
alarm is ringing does not drop the hit — toggleTestSound never consults
the ringing state, only isTestingSound, so the active schedule event is
replaced by the manual test event. -/
theorem C4_counterexample :
    stC4.activeAlarm =
      some { isActive := true, className := "رياضيات", type := AlarmHitType.endHit } ∧
    stC4.isTestingSound = false ∧
    (toggleTestSound 30610000 stC4).activeAlarm =
      some { isActive := true, className := "تجربة الجرس", type := AlarmHitType.startHit } ∧
    (toggleTestSound 30610000 stC4).activeAlarm ≠ stC4.activeAlarm := by
  refine ⟨rfl, rfl, rfl, ?_⟩
  decide

/-- C4 (amended): a schedule trigger while any alarm is ringing is dropped
outright — checkAlarms returns the state unchanged with no events — but
the manual test toggle does not check the ringing state: with the test
flag down it unconditionally replaces the active event by the manual test
event (preempting a ringing schedule alarm), and with the test flag up it
stops the alarm. -/
theorem C4_no_preemption (d : String) (t now : Nat) (st : EngineState)
    (ha : st.activeAlarm ≠ none) :
    checkAlarms d t st = (st, []) ∧
    (st.isTestingSound = false →
      (toggleTestSound now st).activeAlarm =
        some { isActive := true, className := "تجربة الجرس", type := AlarmHitType.startHit }) ∧
    (st.isTestingSound = true → toggleTestSound now st = stopAlarm st) := by
  refine ⟨checkAlarms_skip d t (Or.inr ha), ?_, ?_⟩
  · intro hts
    unfold toggleTestSound
    rw [hts]
    simp
  · intro hts
    unfold toggleTestSound
    rw [hts]
    simp

/-- C4 witness: the schedule-side no-preemption at a concrete ringing
state. -/
theorem C4_witness : checkAlarms "الأحد" 30610000 stC4 = (stC4, []) :=
  (C4_no_preemption "الأحد" 30610000 30610000 stC4 (by decide)).1

end ClaimC4

section ClaimC5

lemma find?_characterization {α : Type} (p : α → Bool) :
    ∀ (l : List α) (a : α),
      l.find? p = some a ↔
        p a = true ∧ ∃ l₁ l₂, l = l₁ ++ a :: l₂ ∧ ∀ x ∈ l₁, p x = false := by
  intro l
  induction l with
  | nil =>
    intro a
    constructor
    · intro h; cases h
    · rintro ⟨-, l₁, l₂, heq, -⟩
      cases l₁ <;> simp at heq
  | cons b bs ih =>
    intro a
    by_cases hp : p b = true
    · rw [List.find?_cons_of_pos _ hp]
      constructor
      · intro h
        injection h with h
        subst h
        exact ⟨hp, [], bs, rfl, by intro x hx; cases hx⟩
      · rintro ⟨hpa, l₁, l₂, heq, hall⟩
        cases l₁ with
        | nil =>
          simp only [List.nil_append, List.cons.injEq] at heq
          rw [heq.1]
        | cons hd tl =>
          simp only [List.cons_append, List.cons.injEq] at heq
          have hf : p hd = false := hall hd (List.mem_cons_self _ _)
          rw [← heq.1] at hf
          rw [hf] at hp
          cases hp
    · have hp' : p b = false := by
        cases hpb : p b
        · rfl
        · exact absurd hpb hp
      rw [List.find?_cons_of_neg _ (by rw [hp']; exact Bool.false_ne_true)]
      rw [ih a]
      constructor
      · rintro ⟨hpa, l₁, l₂, heq, hall⟩
        refine ⟨hpa, b :: l₁, l₂, by rw [heq, List.cons_append], ?_⟩
        intro x hx
        rcases List.mem_cons.mp hx with rfl | hx
        · exact hp'
        · exact hall x hx
      · rintro ⟨hpa, l₁, l₂, heq, hall⟩
        cases l₁ with
        | nil =>
          simp only [List.nil_append, List.cons.injEq] at heq
          rw [← heq.1] at hpa
          rw [hpa] at hp'
          cases hp'
        | cons hd tl =>
          simp only [List.cons_append, List.cons.injEq] at heq
          refine ⟨hpa, tl, l₂, heq.2, ?_⟩
          intro x hx
          exact hall x (List.mem_cons_of_mem _ hx)

lemma ongoingPred_eq_true_iff (d s : String) (c : SchoolClass) :
    ongoingPred d s c = true ↔
      c.active = true ∧ d ∈ c.days ∧ jsLe c.startTime s = true ∧
        jsLt s c.endTime = true := by
  unfold ongoingPred
  by_cases hg : ¬ c.active = true ∨ d ∉ c.days
  · rw [if_pos hg]
    constructor
    · intro h; cases h
    · rintro ⟨h1, h2, -⟩
      rcases hg with hg | hg
      · exact absurd h1 hg
      · exact absurd h2 hg
  · rw [if_neg hg]
    have hact : c.active = true ∧ d ∈ c.days := by
      constructor
      · by_contra hx; exact hg (Or.inl hx)
      · by_contra hx; exact hg (Or.inr hx)
    rw [Bool.and_eq_true]
    exact ⟨fun h => ⟨hact.1, hact.2, h.1, h.2⟩, fun h => ⟨h.2.2.1, h.2.2.2⟩⟩

/-- The concrete class of the claim's example: start 08:00, end 08:30. -/
def cEx5 : SchoolClass :=
  { id := "5", name := "لغة", startTime := "08:00", endTime := "08:30",
    days := ["الأحد"], active := true }

/-- C5: currentOngoingClass reports a class iff it is enabled, scheduled
on the instant's weekday, and the zero-padded HH:mm string lies in the
half-open interval from startTime (inclusive) to endTime (exclusive)
under the string comparison of the source, and every class earlier in the
list fails that test (first in list order wins). A class from 08:00 to
08:30 is ongoing at 08:00 and 08:29 but not at 08:30. -/
theorem C5_ongoing_semantics :
    (∀ (classes : List SchoolClass) (d s : String) (c : SchoolClass),
      currentOngoingClass classes d s = some c ↔
        (c.active = true ∧ d ∈ c.days ∧ jsLe c.startTime s = true ∧
          jsLt s c.endTime = true ∧
          ∃ l₁ l₂, classes = l₁ ++ c :: l₂ ∧
            ∀ c' ∈ l₁, ongoingPred d s c' = false)) ∧
    ongoingPred "الأحد" "08:00" cEx5 = true ∧
    ongoingPred "الأحد" "08:29" cEx5 = true ∧
    ongoingPred "الأحد" "08:30" cEx5 = false ∧
    currentOngoingClassAt [cEx5] "الأحد" 28800000 = some cEx5 ∧
    currentOngoingClassAt [cEx5] "الأحد" 30540000 = some cEx5 ∧
    currentOngoingClassAt [cEx5] "الأحد" 30600000 = none := by
  refine ⟨?_, by decide, by decide, by decide, by decide, by decide, by decide⟩
  intro classes d s c
  unfold currentOngoingClass
  rw [find?_characterization (ongoingPred d s) classes c]
  rw [ongoingPred_eq_true_iff]
  constructor
  · rintro ⟨⟨h1, h2, h3, h4⟩, hrest⟩
    exact ⟨h1, h2, h3, h4, hrest⟩
  · rintro ⟨h1, h2, h3, h4, hrest⟩
    exact ⟨⟨h1, h2, h3, h4⟩, hrest⟩

end ClaimC5

section ClaimC6

/-- A single-class state about to see the first tick of a new minute. -/
def stC6 : EngineState :=
  { currentUser := some "u"
    classes := [{ id := "6", name := "فن", startTime := "08:00",
                  endTime := "08:30", days := ["الأحد"], active := true }]
    activeAlarm := none
    isTestingSound := false
    fired := []
    lastMinute := -1
    timers := []
    timerRef := none
    nextTimerId := 0
    notifGranted := false }

/-- C6: for an enabled class scheduled on the tick's weekday (distinct
ids, processed tick), the class triggers iff the tick's zero-padded HH:mm
string equals the class endTime exactly and the id has not already fired
this minute; on the first tick of a minute (rollover) the dedup condition
is vacuous, so the trigger happens iff the HH:mm string equals endTime.
For the concrete 08:30 class, the first tick at 08:30 triggers it and
ticks at 08:29 or 08:31 never do. -/
theorem C6_boundary_exactness (d : String) (t : Nat) (st : EngineState)
    (c : SchoolClass) (hu : st.currentUser ≠ none) (ha : st.activeAlarm = none)
    (hnd : (st.classes.map SchoolClass.id).Nodup) (hc : c ∈ st.classes)
    (hact : c.active = true) (hday : d ∈ c.days) :
    (1 ≤ countTriggers c.id (checkAlarms d t st).2 ↔
      hhmm t = c.endTime ∧ c.id ∉ baseFired st t) ∧
    (((getMinutes t : Nat) : Int) ≠ st.lastMinute →
      (1 ≤ countTriggers c.id (checkAlarms d t st).2 ↔ hhmm t = c.endTime)) ∧
    1 ≤ countTriggers "6" (checkAlarms "الأحد" 30600000 stC6).2 ∧
    countTriggers "6" (checkAlarms "الأحد" 30540000 stC6).2 = 0 ∧
    countTriggers "6" (checkAlarms "الأحد" 30660000 stC6).2 = 0 := by
  have hmain : 1 ≤ countTriggers c.id (checkAlarms d t st).2 ↔
      hhmm t = c.endTime ∧ c.id ∉ baseFired st t := by
    rw [checkAlarms_count d t hu ha c.id]
    have hiff : (c.id ∉ baseFired st t ∧
        ∃ cc ∈ st.classes, cc.id = c.id ∧ staticHit d t cc) ↔
        (c.id ∉ baseFired st t ∧ staticHit d t c) :=
      and_congr_right fun _ => exists_id_static hnd hc
    rw [if_congr hiff rfl rfl]
    constructor
    · intro h1
      by_cases hcond : c.id ∉ baseFired st t ∧ staticHit d t c
      · exact ⟨hcond.2.2.2, hcond.1⟩
      · rw [if_neg hcond] at h1
        omega
    · rintro ⟨hend, hbase⟩
      rw [if_pos ⟨hbase, hact, hday, hend⟩]
  refine ⟨hmain, ?_, by decide, by decide, by decide⟩
  intro hroll
  rw [hmain]
  have hbase : baseFired st t = [] := by
    unfold baseFired
    rw [if_neg hroll]
  rw [hbase]
  simp

/-- C6 witness: the first tick at 08:30 triggers the 08:30 class. -/
theorem C6_witness : 1 ≤ countTriggers "6" (checkAlarms "الأحد" 30600000 stC6).2 :=
  (C6_boundary_exactness "الأحد" 30600000 stC6
    { id := "6", name := "فن", startTime := "08:00", endTime := "08:30",
      days := ["الأحد"], active := true }
    (by decide) (by decide) (by decide) (by decide) (by decide) (by decide)).2.2.1

end ClaimC6

section ClaimC7

lemma ltCharList_hhmm_midnight :
    ∀ h' < 24, ∀ m' < 60,
      ltCharList (pad2 h' ++ ':' :: pad2 m') ['0', '0', ':', '0', '0'] = false := by
  decide

lemma jsLt_hhmm_midnight (t : Nat) : jsLt (hhmm t) "00:00" = false := by
  have h : jsLt (hhmm t) "00:00" =
      ltCharList (pad2 (getHours t) ++ ':' :: pad2 (getMinutes t))
        ['0', '0', ':', '0', '0'] := rfl
  rw [h]
  exact ltCharList_hhmm_midnight (getHours t) (getHours_lt t)
    (getMinutes t) (getMinutes_lt t)

/-- C7 (amended): a class whose endTime is the string 00:00 is never
reported as ongoing at any instant — its window is empty, because no
zero-padded HH:mm string is smaller than 00:00 under the string
comparison; it does not remain ongoing until the end of the day. -/
theorem C7_end_midnight (classes : List SchoolClass) (d : String) (t : Nat)
    (c : SchoolClass) (h : c.endTime = "00:00") :
    currentOngoingClassAt classes d t ≠ some c := by
  intro heq
  have hp : ongoingPred d (hhmm t) c = true := List.find?_some heq
  rw [ongoingPred_eq_true_iff] at hp
  have hlt : jsLt (hhmm t) c.endTime = true := hp.2.2.2
  rw [h, jsLt_hhmm_midnight t] at hlt
  cases hlt

/-- The class of the claim's edge case: start 08:00, end 00:00, enabled,
scheduled on Sunday. -/
def cMid : SchoolClass :=
  { id := "M", name := "حاسوب", startTime := "08:00", endTime := "00:00",
    days := ["الأحد"], active := true }

/-- C7 counterexample: at Sunday 08:30, after its 08:00 start, the class
ending 00:00 is not reported as ongoing, although the claim says it stays
ongoing until the end of the day. -/
theorem C7_counterexample :
    cMid.startTime = "08:00" ∧ cMid.endTime = "00:00" ∧ cMid.active = true ∧
    "الأحد" ∈ cMid.days ∧ hhmm 30600000 = "08:30" ∧
    currentOngoingClassAt [cMid] "الأحد" 30600000 = none := by
  decide

/-- C7 witness: the amended theorem applied to the concrete class and
instant. -/
theorem C7_witness : currentOngoingClassAt [cMid] "الأحد" 30600000 ≠ some cMid :=
  C7_end_midnight [cMid] "الأحد" 30600000 cMid rfl

end ClaimC7

section ClaimC8

/-- The operations that touch the alarm lifecycle: a processed worker tick,
the manual test toggle, a manual stop, and the passage of real time firing
due auto-stop deadlines. -/
inductive AlarmOp where
  | schedTick (dayName : String) (t : Nat)
  | testToggle (now : Nat)
  | manualStop
  | elapse (now : Nat)

def applyOp (st : EngineState) : AlarmOp → EngineState
  | AlarmOp.schedTick d t => (checkAlarms d t st).1
  | AlarmOp.testToggle now => toggleTestSound now st
  | AlarmOp.manualStop => stopAlarm st
  | AlarmOp.elapse now => fireDueTimers now st

def applyOps (ops : List AlarmOp) (st : EngineState) : EngineState :=
  ops.foldl applyOp st

/-- Timer-tracking invariant: every pending auto-stop timer is the one
referenced by autoStopTimerRef, hence at most one is outstanding. -/
def TimerInv (st : EngineState) : Prop :=
  (∀ p ∈ st.timers, st.timerRef = some p.1) ∧ st.timers.length ≤ 1

lemma removeRefTimer_eq_nil {st : EngineState}
    (h : ∀ p ∈ st.timers, st.timerRef = some p.1) :
    removeRefTimer st = [] := by
  unfold removeRefTimer
  cases href : st.timerRef with
  | none =>
    cases hts : st.timers with
    | nil => rfl
    | cons p l =>
      have := h p (hts ▸ List.mem_cons_self _ _)
      rw [href] at this
      cases this
  | some i =>
    rw [List.filter_eq_nil_iff]
    intro p hp
    have := h p hp
    rw [href] at this
    injection this with this
    simp [this]

lemma TimerInv_triggerAlarm {st : EngineState} (h : TimerInv st)
    (n : String) (ty : AlarmHitType) (now : Nat) :
    (triggerAlarm n ty now st).timers = [(st.nextTimerId, now + 20000)] ∧
    TimerInv (triggerAlarm n ty now st) := by
  have ht : (triggerAlarm n ty now st).timers =
      [(st.nextTimerId, now + 20000)] := by
    unfold triggerAlarm
    simp [removeRefTimer_eq_nil h.1]
  refine ⟨ht, ?_, ?_⟩
  · intro p hp
    rw [ht] at hp
    rcases List.mem_singleton.mp hp with rfl
    rfl
  · rw [ht]
    exact le_refl _

lemma TimerInv_stopAlarm {st : EngineState} (h : TimerInv st) :
    (stopAlarm st).timers = [] ∧ TimerInv (stopAlarm st) := by
  have ht : (stopAlarm st).timers = [] := removeRefTimer_eq_nil h.1
  refine ⟨ht, ?_, ?_⟩
  · intro p hp
    rw [ht] at hp
    cases hp
  · rw [ht]
    exact Nat.zero_le _

lemma TimerInv_fireTimer {st : EngineState} (h : TimerInv st) (i : Nat) :
    TimerInv (fireTimer i st) := by
  unfold fireTimer
  have hmid : TimerInv { st with timers := st.timers.filter (fun p => p.1 ≠ i) } := by
    constructor
    · intro p hp
      exact h.1 p (List.mem_of_mem_filter hp)
    · calc (st.timers.filter (fun p => p.1 ≠ i)).length
          ≤ st.timers.length := List.length_filter_le _ _
        _ ≤ 1 := h.2
  exact (TimerInv_stopAlarm hmid).2

lemma TimerInv_fireDueTimers {st : EngineState} (h : TimerInv st) (now : Nat) :
    TimerInv (fireDueTimers now st) := by
  unfold fireDueTimers
  generalize (st.timers.filter (fun p => p.2 ≤ now)) = l
  induction l generalizing st with
  | nil => exact h
  | cons p l ih => exact ih (TimerInv_fireTimer h p.1)

lemma TimerInv_checkClass {acc : EngineState × List Emitted} (h : TimerInv acc.1)
    (d : String) (t : Nat) (c : SchoolClass) :
    TimerInv (checkClass d t acc c).1 := by
  by_cases hg : ¬ c.active = true ∨ d ∉ c.days
  · rw [checkClass_of_guard d t acc hg]
    exact h
  · by_cases hh : hhmm t = c.endTime ∧ c.id ∉ acc.1.fired
    · rw [checkClass_of_hit d t acc hg hh]
      have hmid : TimerInv { acc.1 with fired := c.id :: acc.1.fired } := h
      exact (TimerInv_triggerAlarm hmid c.name AlarmHitType.endHit t).2
    · rw [checkClass_of_miss d t acc hg hh]
      exact h

lemma TimerInv_checkFold (d : String) (t : Nat) (cs : List SchoolClass) :
    ∀ acc : EngineState × List Emitted, TimerInv acc.1 →
      TimerInv (cs.foldl (checkClass d t) acc).1 := by
  induction cs with
  | nil => intro acc h; exact h
  | cons c cs ih =>
    intro acc h
    rw [List.foldl_cons]
    exact ih _ (TimerInv_checkClass h d t c)

lemma TimerInv_rollState {st : EngineState} (h : TimerInv st) (t : Nat) :
    TimerInv (rollState st t) := by
  unfold rollState
  split
  · exact h
  · exact h

lemma TimerInv_checkAlarms {st : EngineState} (h : TimerInv st)
    (d : String) (t : Nat) : TimerInv (checkAlarms d t st).1 := by
  unfold checkAlarms
  split
  · exact h
  · exact TimerInv_checkFold d t (rollState st t).classes
      (rollState st t, []) (TimerInv_rollState h t)

lemma TimerInv_toggleTestSound {st : EngineState} (h : TimerInv st)
    (now : Nat) : TimerInv (toggleTestSound now st) := by
  unfold toggleTestSound
  split
  · exact (TimerInv_stopAlarm h).2
  · have hmid : TimerInv { st with isTestingSound := true } := h
    exact (TimerInv_triggerAlarm hmid "تجربة الجرس" AlarmHitType.startHit now).2

lemma TimerInv_applyOp {st : EngineState} (h : TimerInv st) (op : AlarmOp) :
    TimerInv (applyOp st op) := by
  cases op with
  | schedTick d t => exact TimerInv_checkAlarms h d t
  | testToggle now => exact TimerInv_toggleTestSound h now
  | manualStop => exact (TimerInv_stopAlarm h).2
  | elapse now => exact TimerInv_fireDueTimers h now

lemma TimerInv_applyOps (ops : List AlarmOp) :
    ∀ st : EngineState, TimerInv st → TimerInv (applyOps ops st) := by
  induction ops with
  | nil => intro st h; exact h
  | cons op ops ih =>
    intro st h
    exact ih _ (TimerInv_applyOp h op)

lemma TimerInv_initState (user : Option String) (classes : List SchoolClass)
    (notif : Bool) : TimerInv (initState user classes notif) := by
  constructor
  · intro p hp
    cases hp
  · exact Nat.zero_le _

lemma removeRefTimer_of_timers_nil {st : EngineState} (h : st.timers = []) :
    removeRefTimer st = [] := by
  unfold removeRefTimer
  cases st.timerRef <;> simp [h]

/-- C8: at most one auto-stop timer is ever outstanding in any state the
engine can reach; stopAlarm cancels the outstanding timer before
returning; and after a trigger the armed deadline is exactly 20000 ms
after the trigger instant: the alarm is still ringing at every earlier
instant, and elapsing to any instant at or past the deadline returns the
alarm state to idle with no timer pending. -/
theorem C8_auto_stop :
    (∀ (ops : List AlarmOp) (user : Option String)
        (classes : List SchoolClass) (notif : Bool),
      (applyOps ops (initState user classes notif)).timers.length ≤ 1) ∧
    (∀ st : EngineState, TimerInv st → (stopAlarm st).timers = []) ∧
    (∀ (st : EngineState) (n : String) (ty : AlarmHitType) (now : Nat),
      TimerInv st →
        (triggerAlarm n ty now st).activeAlarm =
          some { isActive := true, className := n, type := ty } ∧
        (triggerAlarm n ty now st).timers = [(st.nextTimerId, now + 20000)] ∧
        (∀ t', t' < now + 20000 →
          fireDueTimers t' (triggerAlarm n ty now st) =
            triggerAlarm n ty now st) ∧
        (∀ t', now + 20000 ≤ t' →
          (fireDueTimers t' (triggerAlarm n ty now st)).activeAlarm = none ∧
          (fireDueTimers t' (triggerAlarm n ty now st)).timers = [])) := by
  refine ⟨?_, ?_, ?_⟩
  · intro ops user classes notif
    exact (TimerInv_applyOps ops _ (TimerInv_initState user classes notif)).2
  · intro st h
    exact (TimerInv_stopAlarm h).1
  · intro st n ty now h
    obtain ⟨ht, -⟩ := TimerInv_triggerAlarm h n ty now
    refine ⟨rfl, ht, ?_, ?_⟩
    · intro t' hlt
      unfold fireDueTimers
      rw [ht]
      have hfil : ([(st.nextTimerId, now + 20000)].filter
          (fun p => p.2 ≤ t')) = [] := by
        simp [Nat.not_le.mpr hlt]
      rw [hfil]
      rfl
    · intro t' hge
      unfold fireDueTimers
      rw [ht]
      have hfil : ([(st.nextTimerId, now + 20000)].filter
          (fun p => p.2 ≤ t')) = [(st.nextTimerId, now + 20000)] := by
        simp [hge]
      rw [hfil]
      have hstep : ([(st.nextTimerId, now + 20000)].foldl
          (fun s p => fireTimer p.1 s) (triggerAlarm n ty now st)) =
          fireTimer st.nextTimerId (triggerAlarm n ty now st) := rfl
      rw [hstep]
      unfold fireTimer
      constructor
      · rfl
      · rw [stopAlarm_timers]
        apply removeRefTimer_of_timers_nil
        rw [ht]
        simp

/-- C8 witness: a manual test trigger from the start state auto-stops
exactly at its 20000 ms deadline. -/
theorem C8_witness :
    (fireDueTimers 20000
      (triggerAlarm "اختبار" AlarmHitType.startHit 0
        (initState (some "u") [] false))).activeAlarm = none :=
  ((C8_auto_stop.2.2 (initState (some "u") [] false) "اختبار"
    AlarmHitType.startHit 0
    (TimerInv_initState (some "u") [] false)).2.2.2 20000 (le_refl _)).1

end ClaimC8

section ClaimC9

/-- A record satisfying the spec's validity conditions. -/
def goodClass : SchoolClass :=
  { id := "g", name := "تاريخ", startTime := "09:00", endTime := "09:45",
    days := ["الاثنين"], active := true }

/-- A malformed persisted record: empty display name and end not after
start. -/
def badClass : SchoolClass :=
  { id := "b", name := "", startTime := "10:00", endTime := "09:00",
    days := [], active := true }

/-- A record present in memory before the load. -/
def prevClass : SchoolClass :=
  { id := "p", name := "قديم", startTime := "07:00", endTime := "07:45",
    days := ["الأحد"], active := true }

/-- C9 counterexample: the load step performs no per-record validation —
a successfully parsed list containing a malformed record is loaded with
the malformed record kept, not skipped; and when the saved string fails
to parse, the whole list is dropped (the previous in-memory list is kept),
not just the offending part. -/
theorem C9_counterexample :
    wellFormedClass badClass = false ∧
    loadSavedClasses (some (some [goodClass, badClass])) [] =
      [goodClass, badClass] ∧
    badClass ∈ loadSavedClasses (some (some [goodClass, badClass])) [] ∧
    loadSavedClasses (some none) [prevClass] = [prevClass] := by
  decide

/-- C9 (amended): loading the persisted class list is all-or-nothing: a
missing saved string resets the list to empty, a saved string that fails
to parse is swallowed without crashing and the previous in-memory list is
kept unchanged, and a successfully parsed list replaces the state
wholesale — every record of it, malformed or not, is loaded as-is. -/
theorem C9_load_all_or_nothing :
    (∀ prev : List SchoolClass, loadSavedClasses none prev = []) ∧
    (∀ prev : List SchoolClass, loadSavedClasses (some none) prev = prev) ∧
    (∀ (l prev : List SchoolClass), loadSavedClasses (some (some l)) prev = l) :=
  ⟨fun _ => rfl, fun _ => rfl, fun _ _ => rfl⟩

end ClaimC9

end SchoolAlert
